import Mathlib

/-!
Verification development for the workout-logging repository.

The data model follows src/db/schema.ts; the operations follow
src/data/workouts.ts, src/data/exercises.ts and
src/app/dashboard/workout/[workoutId]/actions.ts.  The database is a
quadruple of tables (lists of rows); the authenticated user is passed
explicitly (the repository resolves it from the session via
getCurrentUser and uses only its id).  SQL statements are embedded as
list operations: WHERE is filter, LEFT JOIN produces option-valued
columns, ORDER BY is a stable merge sort on the order-by key with SQL
nulls-last semantics, LIMIT 1 / destructuring of the first returned row
is head?.
-/

namespace LiftingDiary

/-- Row of the exercises table (global catalog, schema.ts). -/
structure Exercise where
  id : Nat
  name : String
deriving Repr, DecidableEq

/-- Row of the workouts table (schema.ts). -/
structure Workout where
  id : Nat
  userId : String
  name : Option String
  date : String
  notes : Option String
deriving Repr, DecidableEq

/-- Row of the workout_exercises join table (schema.ts). -/
structure WorkoutExercise where
  id : Nat
  workoutId : Nat
  exerciseId : Nat
  order : Int
deriving Repr, DecidableEq

/-- Row of the sets table (schema.ts).  Weight is a decimal rendered as
a string by the driver, reps an integer; both nullable. -/
structure SetRow where
  id : Nat
  workoutExerciseId : Nat
  setNumber : Int
  weight : Option String
  reps : Option Int
deriving Repr, DecidableEq

/-- The database: the four tables. -/
structure DB where
  workouts : List Workout
  workoutExercises : List WorkoutExercise
  exercises : List Exercise
  sets : List SetRow
deriving Repr, DecidableEq

/-- One flat row of the four-way left join issued by getWorkoutsByDate.
The workouts table is the leftmost table and the WHERE clause filters on
it, so its column group is always present; the three joined groups are
null (none) when the join found no partner. -/
structure JoinRow where
  workout : Workout
  workoutExercise : Option WorkoutExercise
  exercise : Option Exercise
  set : Option SetRow
deriving Repr, DecidableEq

/-- LEFT JOIN combinator: a list of matching partner rows becomes the
list of option-valued column groups (one null row when no partner). -/
def leftJoinOpt {α : Type} (partners : List α) : List (Option α) :=
  match partners with
  | [] => [none]
  | l => l.map some

/-- The flat result set of the query in getWorkoutsByDate, before ORDER
BY: workouts filtered by (userId, date), left-joined to
workout_exercises, exercises and sets on the schema keys. -/
def joinRows (db : DB) (uid : String) (date : String) : List JoinRow :=
  (db.workouts.filter (fun w => w.userId == uid && w.date == date)).flatMap
    (fun w =>
      (leftJoinOpt (db.workoutExercises.filter (fun we => we.workoutId == w.id))).flatMap
        (fun owe =>
          let exMatches := match owe with
            | none => []
            | some we => db.exercises.filter (fun e => e.id == we.exerciseId)
          (leftJoinOpt exMatches).flatMap
            (fun oex =>
              let setMatches := match owe with
                | none => []
                | some we => db.sets.filter (fun s => s.workoutExerciseId == we.id)
              (leftJoinOpt setMatches).map
                (fun oset =>
                  { workout := w, workoutExercise := owe
                    exercise := oex, set := oset }))))

/-- SQL ascending comparison on a nullable integer sort key, strict
part: non-null sorts before null (nulls last). -/
def optIntLt : Option Int → Option Int → Bool
  | some a, some b => a < b
  | some _, none => true
  | none, _ => false

/-- SQL ascending comparison on a nullable integer sort key, non-strict
part. -/
def optIntLe : Option Int → Option Int → Bool
  | some a, some b => a ≤ b
  | some _, none => true
  | none, some _ => false
  | none, none => true

/-- Equality of nullable sort keys (both null counts as a tie for the
purpose of moving to the next ORDER BY column). -/
def optIntEq : Option Int → Option Int → Bool
  | some a, some b => a == b
  | none, none => true
  | _, _ => false

/-- First ORDER BY column: workoutExercises.order (null when the left
join produced no workout_exercises partner). -/
def rowKeyOrd (r : JoinRow) : Option Int :=
  r.workoutExercise.map WorkoutExercise.order

/-- Second ORDER BY column: sets.setNumber. -/
def rowKeySet (r : JoinRow) : Option Int :=
  r.set.map SetRow.setNumber

/-- Lexicographic ORDER BY (workoutExercises.order, sets.setNumber)
ascending, nulls last. -/
def rowLe (a b : JoinRow) : Bool :=
  optIntLt (rowKeyOrd a) (rowKeyOrd b) ||
    (optIntEq (rowKeyOrd a) (rowKeyOrd b) && optIntLe (rowKeySet a) (rowKeySet b))

/-- Output set record of getWorkoutsByDate. -/
structure OutSet where
  setNumber : Int
  weight : Option String
  reps : Option Int
deriving Repr, DecidableEq

/-- Output exercise record of getWorkoutsByDate (keyed by the
workout_exercises row id, carrying the catalog exercise name). -/
structure OutExercise where
  id : Nat
  name : String
  sets : List OutSet
deriving Repr, DecidableEq

/-- Output workout record of getWorkoutsByDate. -/
structure OutWorkout where
  id : Nat
  name : Option String
  date : String
  notes : Option String
  exercises : List OutExercise
deriving Repr, DecidableEq

/-- The set object pushed by the flattening loop. -/
def outSet (s : SetRow) : OutSet :=
  { setNumber := s.setNumber, weight := s.weight, reps := s.reps }

/-- Fresh exercise entry seeded on first sight of a workoutExercise id. -/
def newExEntry (we : WorkoutExercise) (e : Exercise) : OutExercise :=
  { id := we.id, name := e.name, sets := [] }

/-- Fresh workout entry seeded on first sight of a workout id. -/
def newWorkoutEntry (w : Workout) : OutWorkout :=
  { id := w.id, name := w.name, date := w.date, notes := w.notes, exercises := [] }

/-- workoutMap.has / workoutMap.set of the flattening loop: insert the
workout entry when its id is not yet present (the JS Map preserves
insertion order, so insertion is an append). -/
def ensureWorkout (w : Workout) (acc : List OutWorkout) : List OutWorkout :=
  if acc.any (fun x => x.id == w.id) then acc else acc ++ [newWorkoutEntry w]

/-- workout.exercises.has / set of the flattening loop. -/
def ensureExercise (we : WorkoutExercise) (e : Exercise) (l : List OutExercise) :
    List OutExercise :=
  if l.any (fun x => x.id == we.id) then l else l ++ [newExEntry we e]

/-- exercise.sets.push of the flattening loop, applied to the exercise
entry keyed by the workoutExercise id. -/
def pushSet (weId : Nat) (s : OutSet) (l : List OutExercise) : List OutExercise :=
  l.map (fun e => if e.id == weId then { e with sets := e.sets ++ [s] } else e)

/-- Per-row work inside the current workout entry: guarded by
row.workoutExercise and row.exercise both non-null, seed the exercise
entry, then push the set when row.set is non-null. -/
def stepExercises (r : JoinRow) (l : List OutExercise) : List OutExercise :=
  match r.workoutExercise, r.exercise with
  | some we, some e =>
      match r.set with
      | some s => pushSet we.id (outSet s) (ensureExercise we e l)
      | none => ensureExercise we e l
  | _, _ => l

/-- Apply the per-row work to the workout entry with the row's workout
id (the JS code mutates the map entry in place). -/
def updWorkout (r : JoinRow) (w : OutWorkout) : OutWorkout :=
  if w.id == r.workout.id then { w with exercises := stepExercises r w.exercises } else w

/-- One iteration of the flattening loop of getWorkoutsByDate.  The
row.workout null-guard of the source never fires here because the
workout column group is always present in the embedded join. -/
def processRow (acc : List OutWorkout) (r : JoinRow) : List OutWorkout :=
  (ensureWorkout r.workout acc).map (updWorkout r)

/-- getWorkoutsByDate (src/data/workouts.ts): one filtered, ordered
four-way left join, then a single pass grouping rows into the nested
workout → exercise → set structure, converting the insertion-ordered
maps to arrays. -/
def getWorkoutsByDate (db : DB) (uid : String) (date : String) : List OutWorkout :=
  ((joinRows db uid date).mergeSort rowLe).foldl processRow []

/-- createWorkout (src/data/workouts.ts): insert a workout row with the
owner id injected from the session.  The serial primary key assigned by
the store is modelled as an explicit fresh id. -/
def createWorkout (db : DB) (uid : String) (newId : Nat)
    (name : Option String) (date : String) (notes : Option String) :
    Workout × DB :=
  let w : Workout := { id := newId, userId := uid, name := name, date := date, notes := notes }
  (w, { db with workouts := db.workouts ++ [w] })

/-- getWorkoutById (src/data/workouts.ts): select the workout whose id
and owner both match; destructuring the result array yields the first
row or undefined (none). -/
def getWorkoutById (db : DB) (uid : String) (workoutId : Nat) : Option Workout :=
  (db.workouts.filter (fun w => w.id == workoutId && w.userId == uid)).head?

/-- Partial update payload of updateWorkout: a missing field (outer
none) is not part of the SET clause; an inner none stores NULL. -/
structure WorkoutUpdate where
  name : Option (Option String)
  date : Option String
  notes : Option (Option String)
deriving Repr, DecidableEq

/-- Apply the SET clause of updateWorkout to one matching row. -/
def applyWorkoutUpdate (u : WorkoutUpdate) (w : Workout) : Workout :=
  { w with
    name := u.name.getD w.name
    date := u.date.getD w.date
    notes := u.notes.getD w.notes }

/-- updateWorkout (src/data/workouts.ts): UPDATE ... WHERE id = ? AND
user_id = ? RETURNING; the first returned row (or undefined) and the
new database state. -/
def updateWorkout (db : DB) (uid : String) (workoutId : Nat) (u : WorkoutUpdate) :
    Option Workout × DB :=
  (((db.workouts.filter (fun w => w.id == workoutId && w.userId == uid)).map
      (applyWorkoutUpdate u)).head?,
   { db with workouts := db.workouts.map (fun w =>
      if w.id == workoutId && w.userId == uid then applyWorkoutUpdate u w else w) })

/-- Character class check for one digit of the zod date pattern. -/
def isDigitChar (c : Char) : Bool := c.isDigit

/-- The zod regex of UpdateWorkoutSchema for date strings. -/
def isDateFormat (s : String) : Bool :=
  match s.toList with
  | [a, b, c, d, h1, e, f, h2, g, i] =>
      isDigitChar a && isDigitChar b && isDigitChar c && isDigitChar d &&
      h1 == '-' &&
      isDigitChar e && isDigitChar f &&
      h2 == '-' &&
      isDigitChar g && isDigitChar i
  | _ => false

/-- Parsed input of updateWorkoutAction (UpdateWorkoutSchema). -/
structure UpdateWorkoutInput where
  workoutId : Nat
  name : Option (Option String)
  date : String
  notes : Option (Option String)
deriving Repr, DecidableEq

/-- UpdateWorkoutSchema.parse: date must match the YYYY-MM-DD regex,
name at most 255 characters, notes at most 1000. -/
def validUpdateWorkoutInput (input : UpdateWorkoutInput) : Bool :=
  isDateFormat input.date &&
  (match input.name with
   | some (some s) => s.length ≤ 255
   | _ => true) &&
  (match input.notes with
   | some (some s) => s.length ≤ 1000
   | _ => true)

/-- updateWorkoutAction (actions.ts): validate, delegate to
updateWorkout, then build the response from workout.id.  When the
update matched no row the data layer returns undefined and the property
access workout.id raises a TypeError, modelled as an error result. -/
def updateWorkoutAction (db : DB) (uid : String) (input : UpdateWorkoutInput) :
    Except String (Nat × String) × DB :=
  if validUpdateWorkoutInput input then
    let r := updateWorkout db uid input.workoutId
      { name := input.name, date := some input.date, notes := input.notes }
    match r.1 with
    | some w => (Except.ok (w.id, input.date), r.2)
    | none => (Except.error "TypeError: cannot read properties of undefined", r.2)
  else
    (Except.error "zod validation failed", db)

/-- Ids of the workouts owned by the given user: the subquery built at
the top of the ownership-scoped set operations. -/
def userWorkoutIds (db : DB) (uid : String) : List Nat :=
  (db.workouts.filter (fun w => w.userId == uid)).map Workout.id

/-- Ids of the workout_exercises reachable from a workout owned by the
given user: the second subquery of the set operations. -/
def userWorkoutExerciseIds (db : DB) (uid : String) : List Nat :=
  (db.workoutExercises.filter
    (fun we => (userWorkoutIds db uid).contains we.workoutId)).map WorkoutExercise.id

/-- addExerciseToWorkout (src/data/exercises.ts): check the workout is
owned by the caller, check the exercise exists, then insert; each check
failure throws before anything is written. -/
def addExerciseToWorkout (db : DB) (uid : String) (newId : Nat)
    (workoutId : Nat) (exerciseId : Nat) (order : Int) :
    Except String WorkoutExercise × DB :=
  match (db.workouts.filter (fun w => w.id == workoutId && w.userId == uid)).head? with
  | none => (Except.error "Workout not found", db)
  | some _ =>
      match (db.exercises.filter (fun e => e.id == exerciseId)).head? with
      | none =>
          (Except.error ("Exercise with ID " ++ toString exerciseId ++ " not found"), db)
      | some _ =>
          let we : WorkoutExercise :=
            { id := newId, workoutId := workoutId, exerciseId := exerciseId, order := order }
          (Except.ok we, { db with workoutExercises := db.workoutExercises ++ [we] })

/-- createSet (src/data/exercises.ts): verify the workoutExercise is
reachable from a workout owned by the caller (select ... where id = ?
and id in subquery, limit 1); throw before inserting when it is not. -/
def createSet (db : DB) (uid : String) (newId : Nat)
    (workoutExerciseId : Nat) (setNumber : Int)
    (weight : Option String) (reps : Option Int) :
    Except String SetRow × DB :=
  match (db.workoutExercises.filter
      (fun we => we.id == workoutExerciseId &&
        (userWorkoutExerciseIds db uid).contains we.id)).head? with
  | none => (Except.error "Workout exercise not found", db)
  | some _ =>
      let s : SetRow :=
        { id := newId, workoutExerciseId := workoutExerciseId
          setNumber := setNumber, weight := weight, reps := reps }
      (Except.ok s, { db with sets := db.sets ++ [s] })

/-- Partial update payload of updateSet. -/
structure SetUpdate where
  weight : Option (Option String)
  reps : Option (Option Int)
deriving Repr, DecidableEq

/-- Apply the SET clause of updateSet to one matching row. -/
def applySetUpdate (u : SetUpdate) (s : SetRow) : SetRow :=
  { s with
    weight := u.weight.getD s.weight
    reps := u.reps.getD s.reps }

/-- updateSet (src/data/exercises.ts): UPDATE sets WHERE id = ? AND
workout_exercise_id IN ownership-subquery RETURNING. -/
def updateSet (db : DB) (uid : String) (setId : Nat) (u : SetUpdate) :
    Option SetRow × DB :=
  (((db.sets.filter (fun s =>
      s.id == setId && (userWorkoutExerciseIds db uid).contains s.workoutExerciseId)).map
        (applySetUpdate u)).head?,
   { db with sets := db.sets.map (fun s =>
      if s.id == setId && (userWorkoutExerciseIds db uid).contains s.workoutExerciseId
      then applySetUpdate u s else s) })

/-- deleteSet (src/data/exercises.ts): DELETE FROM sets WHERE id = ?
AND workout_exercise_id IN ownership-subquery. -/
def deleteSet (db : DB) (uid : String) (setId : Nat) : DB :=
  { db with
    sets := db.sets.filter (fun s =>
      !(s.id == setId && (userWorkoutExerciseIds db uid).contains s.workoutExerciseId)) }

/-- deleteSetAction (actions.ts): validate the id shapes, delegate to
deleteSet, revalidate the path, return success true unconditionally. -/
def deleteSetAction (db : DB) (uid : String) (setId : Nat) (workoutId : Nat) :
    Bool × DB :=
  (true, deleteSet db uid setId)

/-- A workoutExercise id reachable from a workout owned by the user:
the ownership chain the subqueries compute. -/
def reachableWE (db : DB) (uid : String) (weId : Nat) : Prop :=
  ∃ we ∈ db.workoutExercises, we.id = weId ∧
    ∃ w ∈ db.workouts, w.id = we.workoutId ∧ w.userId = uid

/-- All rows of a table carry distinct ids (the serial primary key of
the schema). -/
def idsUnique {α : Type} (f : α → Nat) (l : List α) : Prop :=
  l.Pairwise (fun a b => f a ≠ f b)

/-- Well-formed database: primary keys are unique in each table. -/
def DB.wf (db : DB) : Prop :=
  idsUnique Workout.id db.workouts ∧
  idsUnique WorkoutExercise.id db.workoutExercises ∧
  idsUnique Exercise.id db.exercises ∧
  idsUnique SetRow.id db.sets

instance (db : DB) : Decidable db.wf := by
  unfold DB.wf idsUnique
  infer_instance

instance (db : DB) (uid : String) (weId : Nat) : Decidable (reachableWE db uid weId) := by
  unfold reachableWE
  infer_instance

instance {α : Type} (f : α → Nat) (l : List α) : Decidable (idsUnique f l) := by
  unfold idsUnique
  infer_instance

/-- The order column of the unique workout_exercises row with the given
id, as the sortedness statements refer to it. -/
def ordOf (db : DB) (weId : Nat) : Option Int :=
  (db.workoutExercises.find? (fun we => we.id == weId)).map WorkoutExercise.order

/-- What the join guarantees about every flat row: the workout columns
come from a matching owned workout, and each non-null joined column
group comes from its table with the join key satisfied. -/
def rowSrc (db : DB) (uid : String) (date : String) (r : JoinRow) : Prop :=
  r.workout ∈ db.workouts ∧ r.workout.userId = uid ∧ r.workout.date = date ∧
  (∀ we, r.workoutExercise = some we →
    we ∈ db.workoutExercises ∧ we.workoutId = r.workout.id) ∧
  (∀ e, r.exercise = some e →
    e ∈ db.exercises ∧ ∃ we, r.workoutExercise = some we ∧ e.id = we.exerciseId) ∧
  (∀ s, r.set = some s →
    s ∈ db.sets ∧ ∃ we, r.workoutExercise = some we ∧ s.workoutExerciseId = we.id)

/-- Comparison on output exercise entries by the order column of the
workout_exercises row they are keyed by. -/
def exLeDB (db : DB) (e1 e2 : OutExercise) : Prop :=
  ∀ o1 o2, ordOf db e1.id = some o1 → ordOf db e2.id = some o2 → o1 ≤ o2

/-- Sets of one output exercise entry are in ascending setNumber order. -/
def setsSorted (ex : OutExercise) : Prop :=
  ex.sets.Pairwise (fun s1 s2 => s1.setNumber ≤ s2.setNumber)

/-- Invariant of the flattening accumulator: exercise lists sorted by
order, set lists sorted by setNumber. -/
def accSorted (db : DB) (acc : List OutWorkout) : Prop :=
  ∀ x ∈ acc, x.exercises.Pairwise (exLeDB db) ∧ ∀ ex ∈ x.exercises, setsSorted ex

/-- The accumulator is bounded by a yet-unprocessed row: already-seen
exercises have order at most the row's, and already-pushed sets of the
row's own exercise have setNumber at most the row's. -/
def accBound (db : DB) (acc : List OutWorkout) (r : JoinRow) : Prop :=
  ∀ we, r.workoutExercise = some we →
    (∀ x ∈ acc, ∀ ex ∈ x.exercises, ∀ o, ordOf db ex.id = some o → o ≤ we.order) ∧
    (∀ s, r.set = some s → ∀ x ∈ acc, ∀ ex ∈ x.exercises, ex.id = we.id →
      ∀ st ∈ ex.sets, st.setNumber ≤ s.setNumber)

/-- A small concrete database: alice owns workout 1 (a Squat
workout-exercise with two sets and a Bench one with none) and the
exercise-free workout 2; bob owns workout 3; all on the same date. -/
def sampleDB : DB :=
  { workouts := [
      { id := 1, userId := "alice", name := some "Push Day",
        date := "2025-06-01", notes := some "felt strong" },
      { id := 2, userId := "alice", name := some "Empty",
        date := "2025-06-01", notes := none },
      { id := 3, userId := "bob", name := none, date := "2025-06-01", notes := none }],
    workoutExercises := [
      { id := 10, workoutId := 1, exerciseId := 3, order := 0 },
      { id := 11, workoutId := 1, exerciseId := 4, order := 1 }],
    exercises := [{ id := 3, name := "Squat" }, { id := 4, name := "Bench" }],
    sets := [
      { id := 100, workoutExerciseId := 10, setNumber := 1,
        weight := some "135.00", reps := some 10 },
      { id := 101, workoutExerciseId := 10, setNumber := 2,
        weight := some "155.00", reps := some 8 }] }

/-- What fetching 2025-06-01 as alice returns for workout 1. -/
def sampleOut1 : OutWorkout :=
  { id := 1, name := some "Push Day", date := "2025-06-01",
    notes := some "felt strong",
    exercises := [
      { id := 10, name := "Squat",
        sets := [{ setNumber := 1, weight := some "135.00", reps := some 10 },
                 { setNumber := 2, weight := some "155.00", reps := some 8 }] },
      { id := 11, name := "Bench", sets := [] }] }

/-- What fetching 2025-06-01 as alice returns for workout 2. -/
def sampleOut2 : OutWorkout :=
  { id := 2, name := some "Empty", date := "2025-06-01", notes := none,
    exercises := [] }

/-- A database with no rows at all. -/
def emptyDB : DB :=
  { workouts := [], workoutExercises := [], exercises := [], sets := [] }

lemma mem_leftJoinOpt {α : Type} {l : List α} {o : Option α}
    (h : o ∈ leftJoinOpt l) : o = none ∨ ∃ a ∈ l, o = some a := by
  unfold leftJoinOpt at h
  cases l with
  | nil => simp at h; exact Or.inl h
  | cons a t =>
      rcases List.mem_map.1 h with ⟨b, hb, rfl⟩
      exact Or.inr ⟨b, hb, rfl⟩

lemma some_mem_leftJoinOpt {α : Type} {l : List α} {a : α} (h : a ∈ l) :
    some a ∈ leftJoinOpt l := by
  unfold leftJoinOpt
  cases l with
  | nil => cases h
  | cons b t => exact List.mem_map_of_mem some h

lemma exists_mem_leftJoinOpt {α : Type} (l : List α) : ∃ o, o ∈ leftJoinOpt l := by
  cases l with
  | nil => exact ⟨none, by simp [leftJoinOpt]⟩
  | cons a t => exact ⟨some a, some_mem_leftJoinOpt (List.mem_cons_self a t)⟩

lemma joinRows_src {db : DB} {uid date : String} {r : JoinRow}
    (h : r ∈ joinRows db uid date) : rowSrc db uid date r := by
  unfold joinRows at h
  rcases List.mem_flatMap.1 h with ⟨w, hw, h1⟩
  rcases List.mem_filter.1 hw with ⟨hwmem, hwp⟩
  simp only [Bool.and_eq_true] at hwp
  rcases hwp with ⟨hwu, hwd⟩
  rcases List.mem_flatMap.1 h1 with ⟨owe, howe, h2⟩
  rcases List.mem_flatMap.1 h2 with ⟨oex, hoex, h3⟩
  rcases List.mem_map.1 h3 with ⟨oset, hoset, rfl⟩
  refine ⟨hwmem, by simpa using hwu, by simpa using hwd, ?_, ?_, ?_⟩
  · intro we hwe
    simp only at hwe
    subst hwe
    rcases mem_leftJoinOpt howe with h | ⟨we0, hwe0, hsome⟩
    · cases h
    · cases hsome
      rcases List.mem_filter.1 hwe0 with ⟨hm, hp⟩
      exact ⟨hm, by simpa using hp⟩
  · intro e he
    simp only at he
    subst he
    rcases mem_leftJoinOpt hoex with h | ⟨e0, he0, hsome⟩
    · cases h
    · cases hsome
      cases owe with
      | none => simp at he0
      | some we =>
          simp only at he0
          rcases List.mem_filter.1 he0 with ⟨hm, hp⟩
          exact ⟨hm, we, rfl, by simpa using hp⟩
  · intro s hs
    simp only at hs
    subst hs
    rcases mem_leftJoinOpt hoset with h | ⟨s0, hs0, hsome⟩
    · cases h
    · cases hsome
      cases owe with
      | none => simp at hs0
      | some we =>
          simp only at hs0
          rcases List.mem_filter.1 hs0 with ⟨hm, hp⟩
          exact ⟨hm, we, rfl, by simpa using hp⟩

lemma joinRows_exists_workout {db : DB} {uid date : String} {w : Workout}
    (hmem : w ∈ db.workouts) (hu : w.userId = uid) (hd : w.date = date) :
    ∃ r ∈ joinRows db uid date, r.workout = w := by
  unfold joinRows
  have hwf : w ∈ db.workouts.filter (fun x => x.userId == uid && x.date == date) :=
    List.mem_filter.2 ⟨hmem, by simp [hu, hd]⟩
  rcases exists_mem_leftJoinOpt
    (db.workoutExercises.filter (fun we => we.workoutId == w.id)) with ⟨owe, howe⟩
  rcases exists_mem_leftJoinOpt
    (match owe with
      | none => []
      | some we => db.exercises.filter (fun e => e.id == we.exerciseId)) with ⟨oex, hoex⟩
  rcases exists_mem_leftJoinOpt
    (match owe with
      | none => []
      | some we => db.sets.filter (fun s => s.workoutExerciseId == we.id)) with ⟨oset, hoset⟩
  refine ⟨{ workout := w, workoutExercise := owe, exercise := oex, set := oset }, ?_, rfl⟩
  exact List.mem_flatMap.2 ⟨w, hwf,
    List.mem_flatMap.2 ⟨owe, howe,
      List.mem_flatMap.2 ⟨oex, hoex,
        List.mem_map.2 ⟨oset, hoset, rfl⟩⟩⟩⟩

lemma joinRows_exists_we {db : DB} {uid date : String} {w : Workout}
    {we : WorkoutExercise} {e : Exercise}
    (hmem : w ∈ db.workouts) (hu : w.userId = uid) (hd : w.date = date)
    (hwe : we ∈ db.workoutExercises) (hlink : we.workoutId = w.id)
    (he : e ∈ db.exercises) (hek : e.id = we.exerciseId) :
    ∃ r ∈ joinRows db uid date,
      r.workout = w ∧ r.workoutExercise = some we ∧ r.exercise = some e := by
  unfold joinRows
  have hwf : w ∈ db.workouts.filter (fun x => x.userId == uid && x.date == date) :=
    List.mem_filter.2 ⟨hmem, by simp [hu, hd]⟩
  have howe : some we ∈ leftJoinOpt
      (db.workoutExercises.filter (fun x => x.workoutId == w.id)) :=
    some_mem_leftJoinOpt (List.mem_filter.2 ⟨hwe, by simp [hlink]⟩)
  have hoex : some e ∈ leftJoinOpt (db.exercises.filter (fun x => x.id == we.exerciseId)) :=
    some_mem_leftJoinOpt (List.mem_filter.2 ⟨he, by simp [hek]⟩)
  rcases exists_mem_leftJoinOpt
    (db.sets.filter (fun s => s.workoutExerciseId == we.id)) with ⟨oset, hoset⟩
  refine ⟨{ workout := w, workoutExercise := some we, exercise := some e, set := oset },
    ?_, rfl, rfl, rfl⟩
  exact List.mem_flatMap.2 ⟨w, hwf,
    List.mem_flatMap.2 ⟨some we, howe,
      List.mem_flatMap.2 ⟨some e, hoex,
        List.mem_map.2 ⟨oset, hoset, rfl⟩⟩⟩⟩

lemma idsUnique_eq {α : Type} {f : α → Nat} {l : List α}
    (hu : idsUnique f l) {a b : α} (ha : a ∈ l) (hb : b ∈ l) (hf : f a = f b) :
    a = b := by
  induction l with
  | nil => cases ha
  | cons x t ih =>
      rcases List.pairwise_cons.1 hu with ⟨hx, ht⟩
      rcases List.mem_cons.1 ha with h1 | h1
      · rcases List.mem_cons.1 hb with h2 | h2
        · rw [h1, h2]
        · subst h1
          exact absurd hf (hx b h2)
      · rcases List.mem_cons.1 hb with h2 | h2
        · subst h2
          exact absurd hf.symm (hx a h1)
        · exact ih ht h1 h2

lemma find?_idsUnique {α : Type} {f : α → Nat} {l : List α}
    (hu : idsUnique f l) {a : α} (ha : a ∈ l) :
    l.find? (fun x => f x == f a) = some a := by
  induction l with
  | nil => cases ha
  | cons x t ih =>
      rcases List.pairwise_cons.1 hu with ⟨hx, ht⟩
      rcases List.mem_cons.1 ha with rfl | ha
      · simp [List.find?]
      · rw [List.find?]
        have : (f x == f a) = false := by
          simp only [beq_eq_false_iff_ne, ne_eq]
          exact hx a ha
        rw [this]
        exact ih ht ha

lemma ordOf_eq {db : DB} (hwf : db.wf) {we : WorkoutExercise}
    (h : we ∈ db.workoutExercises) : ordOf db we.id = some we.order := by
  unfold ordOf
  rw [find?_idsUnique hwf.2.1 h]
  rfl

lemma updWorkout_id (r : JoinRow) (w : OutWorkout) : (updWorkout r w).id = w.id := by
  unfold updWorkout
  split <;> rfl

lemma updWorkout_scal (r : JoinRow) (w : OutWorkout) :
    (updWorkout r w).id = w.id ∧ (updWorkout r w).name = w.name ∧
    (updWorkout r w).date = w.date ∧ (updWorkout r w).notes = w.notes := by
  unfold updWorkout
  split <;> exact ⟨rfl, rfl, rfl, rfl⟩

lemma updWorkout_exercises (r : JoinRow) (w : OutWorkout) :
    (updWorkout r w).exercises =
      if w.id == r.workout.id then stepExercises r w.exercises else w.exercises := by
  unfold updWorkout
  split <;> simp_all

lemma mem_ensureWorkout {w : Workout} {acc : List OutWorkout} {x : OutWorkout}
    (h : x ∈ ensureWorkout w acc) : x ∈ acc ∨ x = newWorkoutEntry w := by
  unfold ensureWorkout at h
  split at h
  · exact Or.inl h
  · rcases List.mem_append.1 h with h | h
    · exact Or.inl h
    · exact Or.inr (List.mem_singleton.1 h)

lemma ensureWorkout_has {w : Workout} (acc : List OutWorkout) :
    ∃ x ∈ ensureWorkout w acc, x.id = w.id := by
  unfold ensureWorkout
  split
  · next hany =>
      rcases List.any_eq_true.1 hany with ⟨x, hx, hp⟩
      exact ⟨x, hx, by simpa using hp⟩
  · exact ⟨newWorkoutEntry w, List.mem_append.2 (Or.inr (List.mem_singleton.2 rfl)), rfl⟩

lemma ensureWorkout_keeps {w : Workout} {acc : List OutWorkout} {x : OutWorkout}
    (h : x ∈ acc) : x ∈ ensureWorkout w acc := by
  unfold ensureWorkout
  split
  · exact h
  · exact List.mem_append.2 (Or.inl h)

lemma mem_processRow {acc : List OutWorkout} {r : JoinRow} {x : OutWorkout}
    (h : x ∈ processRow acc r) :
    ∃ w0, (w0 ∈ acc ∨ w0 = newWorkoutEntry r.workout) ∧ x = updWorkout r w0 := by
  unfold processRow at h
  rcases List.mem_map.1 h with ⟨w0, hw0, rfl⟩
  exact ⟨w0, mem_ensureWorkout hw0, rfl⟩

lemma mem_pushSet {i : Nat} {s : OutSet} {l : List OutExercise} {ex : OutExercise}
    (h : ex ∈ pushSet i s l) :
    ∃ ex0 ∈ l, (ex0.id = i ∧ ex = { ex0 with sets := ex0.sets ++ [s] }) ∨ ex = ex0 := by
  unfold pushSet at h
  rcases List.mem_map.1 h with ⟨ex0, hex0, rfl⟩
  refine ⟨ex0, hex0, ?_⟩
  by_cases hid : ex0.id = i
  · exact Or.inl ⟨hid, by simp [hid]⟩
  · exact Or.inr (by simp [hid])

lemma pushSet_keeps {i : Nat} {s : OutSet} {l : List OutExercise} {ex0 : OutExercise}
    (h : ex0 ∈ l) : ∃ ex ∈ pushSet i s l, ex.id = ex0.id ∧ ex.name = ex0.name := by
  unfold pushSet
  refine ⟨_, List.mem_map_of_mem _ h, ?_⟩
  by_cases hid : ex0.id = i <;> simp [hid]

lemma mem_ensureExercise {we : WorkoutExercise} {e : Exercise}
    {l : List OutExercise} {ex : OutExercise} (h : ex ∈ ensureExercise we e l) :
    ex ∈ l ∨ ex = newExEntry we e := by
  unfold ensureExercise at h
  split at h
  · exact Or.inl h
  · rcases List.mem_append.1 h with h | h
    · exact Or.inl h
    · exact Or.inr (List.mem_singleton.1 h)

lemma ensureExercise_has {we : WorkoutExercise} {e : Exercise} (l : List OutExercise) :
    ∃ ex ∈ ensureExercise we e l, ex.id = we.id := by
  unfold ensureExercise
  split
  · next hany =>
      rcases List.any_eq_true.1 hany with ⟨x, hx, hp⟩
      exact ⟨x, hx, by simpa using hp⟩
  · exact ⟨newExEntry we e, List.mem_append.2 (Or.inr (List.mem_singleton.2 rfl)), rfl⟩

lemma ensureExercise_keeps {we : WorkoutExercise} {e : Exercise}
    {l : List OutExercise} {ex0 : OutExercise} (h : ex0 ∈ l) :
    ex0 ∈ ensureExercise we e l := by
  unfold ensureExercise
  split
  · exact h
  · exact List.mem_append.2 (Or.inl h)

/-- Identity and name of every exercise entry after a row step come
from an entry already present or from the row's joined columns. -/
lemma exIdName_stepExercises {r : JoinRow} {l : List OutExercise} {ex : OutExercise}
    (h : ex ∈ stepExercises r l) :
    (∃ ex0 ∈ l, ex.id = ex0.id ∧ ex.name = ex0.name) ∨
    (∃ we e, r.workoutExercise = some we ∧ r.exercise = some e ∧
      ex.id = we.id ∧ ex.name = e.name) := by
  unfold stepExercises at h
  cases hwe : r.workoutExercise with
  | none => rw [hwe] at h; exact Or.inl ⟨ex, h, rfl, rfl⟩
  | some we =>
    cases hex : r.exercise with
    | none => rw [hwe, hex] at h; exact Or.inl ⟨ex, h, rfl, rfl⟩
    | some e =>
      rw [hwe, hex] at h
      cases hset : r.set with
      | none =>
          rw [hset] at h
          rcases mem_ensureExercise h with h | h
          · exact Or.inl ⟨ex, h, rfl, rfl⟩
          · exact Or.inr ⟨we, e, rfl, rfl, by rw [h]; exact rfl, by rw [h]; exact rfl⟩
      | some s =>
          rw [hset] at h
          rcases mem_pushSet h with ⟨ex0, hex0, hcase⟩
          have hidname : ex.id = ex0.id ∧ ex.name = ex0.name := by
            rcases hcase with ⟨_, rfl⟩ | rfl
            · exact ⟨rfl, rfl⟩
            · exact ⟨rfl, rfl⟩
          rcases mem_ensureExercise hex0 with h0 | h0
          · exact Or.inl ⟨ex0, h0, hidname⟩
          · refine Or.inr ⟨we, e, rfl, rfl, ?_, ?_⟩
            · rw [hidname.1, h0]; rfl
            · rw [hidname.2, h0]; rfl

/-- Every set of every exercise entry after a row step was already
present in an entry of the same id, or is the row's set columns pushed
onto the entry keyed by the row's workoutExercise id. -/
lemma sets_stepExercises {r : JoinRow} {l : List OutExercise} {ex : OutExercise}
    {s : OutSet} (hex : ex ∈ stepExercises r l) (hs : s ∈ ex.sets) :
    (∃ ex0 ∈ l, ex0.id = ex.id ∧ s ∈ ex0.sets) ∨
    (∃ we srow, r.workoutExercise = some we ∧ r.set = some srow ∧
      ex.id = we.id ∧ s = outSet srow) := by
  unfold stepExercises at hex
  cases hwe : r.workoutExercise with
  | none => rw [hwe] at hex; exact Or.inl ⟨ex, hex, rfl, hs⟩
  | some we =>
    cases hexr : r.exercise with
    | none => rw [hwe, hexr] at hex; exact Or.inl ⟨ex, hex, rfl, hs⟩
    | some e =>
      rw [hwe, hexr] at hex
      cases hset : r.set with
      | none =>
          rw [hset] at hex
          rcases mem_ensureExercise hex with h | h
          · exact Or.inl ⟨ex, h, rfl, hs⟩
          · rw [h] at hs
            cases hs
      | some srow =>
          rw [hset] at hex
          rcases mem_pushSet hex with ⟨ex0, hex0, hcase⟩
          rcases hcase with ⟨hid0, rfl⟩ | rfl
          · simp only [List.mem_append, List.mem_singleton] at hs
            rcases hs with hs | rfl
            · rcases mem_ensureExercise hex0 with h0 | h0
              · exact Or.inl ⟨ex0, h0, rfl, hs⟩
              · rw [h0] at hs
                cases hs
            · exact Or.inr ⟨we, srow, rfl, rfl, hid0, rfl⟩
          · rcases mem_ensureExercise hex0 with h0 | h0
            · exact Or.inl ⟨ex, h0, rfl, hs⟩
            · rw [h0] at hs
              cases hs

/-- Exercise entries persist across a row step (id and name). -/
lemma stepExercises_keeps {r : JoinRow} {l : List OutExercise} {ex0 : OutExercise}
    (h : ex0 ∈ l) :
    ∃ ex ∈ stepExercises r l, ex.id = ex0.id ∧ ex.name = ex0.name := by
  unfold stepExercises
  cases r.workoutExercise with
  | none => exact ⟨ex0, h, rfl, rfl⟩
  | some we =>
    cases r.exercise with
    | none => exact ⟨ex0, h, rfl, rfl⟩
    | some e =>
      cases r.set with
      | none => exact ⟨ex0, ensureExercise_keeps h, rfl, rfl⟩
      | some s => exact pushSet_keeps (ensureExercise_keeps h)

/-- The row step creates (or finds) the exercise entry keyed by the
row's workoutExercise id when both joined groups are non-null. -/
lemma stepExercises_has {r : JoinRow} {we : WorkoutExercise} {e : Exercise}
    (hwe : r.workoutExercise = some we) (he : r.exercise = some e)
    (l : List OutExercise) :
    ∃ ex ∈ stepExercises r l, ex.id = we.id := by
  unfold stepExercises
  rw [hwe, he]
  cases hset : r.set with
  | none => exact ensureExercise_has l
  | some s =>
      rcases @ensureExercise_has we e l with ⟨ex0, hex0, hid⟩
      rcases pushSet_keeps (i := we.id) (s := outSet s) hex0 with ⟨ex, hex, hid2, _⟩
      exact ⟨ex, hex, hid2.trans hid⟩

/-- Scalar columns of every output workout entry come from the workout
columns of some processed row (or from the initial accumulator). -/
lemma scal_foldl :
    ∀ (rows : List JoinRow) (acc : List OutWorkout) (x : OutWorkout),
      x ∈ rows.foldl processRow acc →
      (∃ w0 ∈ acc, x.id = w0.id ∧ x.name = w0.name ∧ x.date = w0.date ∧
        x.notes = w0.notes) ∨
      (∃ r ∈ rows, x.id = r.workout.id ∧ x.name = r.workout.name ∧
        x.date = r.workout.date ∧ x.notes = r.workout.notes) := by
  intro rows
  induction rows with
  | nil => intro acc x h; exact Or.inl ⟨x, h, rfl, rfl, rfl, rfl⟩
  | cons r rest ih =>
      intro acc x h
      rcases ih (processRow acc r) x h with ⟨w0, hw0, heq⟩ | ⟨r1, hr1, heq⟩
      · rcases mem_processRow hw0 with ⟨w1, hw1, rfl⟩
        rcases updWorkout_scal r w1 with ⟨e1, e2, e3, e4⟩
        rcases hw1 with hw1 | rfl
        · exact Or.inl ⟨w1, hw1,
            heq.1.trans e1, heq.2.1.trans e2, heq.2.2.1.trans e3, heq.2.2.2.trans e4⟩
        · exact Or.inr ⟨r, List.mem_cons_self r rest,
            heq.1.trans e1, heq.2.1.trans e2, heq.2.2.1.trans e3, heq.2.2.2.trans e4⟩
      · exact Or.inr ⟨r1, List.mem_cons_of_mem r hr1, heq⟩

/-- Identity and name of every output exercise entry come from the
workoutExercise and exercise columns of some processed row whose
workout id matches the containing entry. -/
lemma ex_foldl :
    ∀ (rows : List JoinRow) (acc : List OutWorkout) (x : OutWorkout)
      (ex : OutExercise),
      x ∈ rows.foldl processRow acc → ex ∈ x.exercises →
      (∃ w0 ∈ acc, w0.id = x.id ∧
        ∃ ex0 ∈ w0.exercises, ex.id = ex0.id ∧ ex.name = ex0.name) ∨
      (∃ r ∈ rows, r.workout.id = x.id ∧
        ∃ we e, r.workoutExercise = some we ∧ r.exercise = some e ∧
          ex.id = we.id ∧ ex.name = e.name) := by
  intro rows
  induction rows with
  | nil => intro acc x ex h hex; exact Or.inl ⟨x, h, rfl, ex, hex, rfl, rfl⟩
  | cons r rest ih =>
      intro acc x ex h hex
      rcases ih (processRow acc r) x ex h hex with
        ⟨w0, hw0, hid, ex0, hex0, hidx, hnm⟩ | ⟨r1, hr1, heq⟩
      · rcases mem_processRow hw0 with ⟨w1, hw1, rfl⟩
        have hid1 : w1.id = x.id := (updWorkout_id r w1) ▸ hid
        rw [updWorkout_exercises] at hex0
        by_cases hb : (w1.id == r.workout.id) = true
        · rw [if_pos hb] at hex0
          rcases exIdName_stepExercises hex0 with
            ⟨ex1, hex1, hidx1, hnm1⟩ | ⟨we, e, hwe, he, hidx1, hnm1⟩
          · rcases hw1 with hw1 | rfl
            · exact Or.inl ⟨w1, hw1, hid1, ex1, hex1,
                hidx.trans hidx1, hnm.trans hnm1⟩
            · simp [newWorkoutEntry] at hex1
          · exact Or.inr ⟨r, List.mem_cons_self r rest,
              (eq_of_beq hb) ▸ hid1, we, e, hwe, he,
              hidx.trans hidx1, hnm.trans hnm1⟩
        · rw [if_neg hb] at hex0
          rcases hw1 with hw1 | rfl
          · exact Or.inl ⟨w1, hw1, hid1, ex0, hex0, hidx, hnm⟩
          · simp [newWorkoutEntry] at hex0
      · exact Or.inr ⟨r1, List.mem_cons_of_mem r hr1, heq⟩

/-- Every set of every output exercise entry comes from the set columns
of some processed row whose workoutExercise id matches the entry. -/
lemma sets_foldl :
    ∀ (rows : List JoinRow) (acc : List OutWorkout) (x : OutWorkout)
      (ex : OutExercise) (s : OutSet),
      x ∈ rows.foldl processRow acc → ex ∈ x.exercises → s ∈ ex.sets →
      (∃ w0 ∈ acc, w0.id = x.id ∧
        ∃ ex0 ∈ w0.exercises, ex0.id = ex.id ∧ s ∈ ex0.sets) ∨
      (∃ r ∈ rows, r.workout.id = x.id ∧
        ∃ we srow, r.workoutExercise = some we ∧ we.id = ex.id ∧
          r.set = some srow ∧ s = outSet srow) := by
  intro rows
  induction rows with
  | nil => intro acc x ex s h hex hs; exact Or.inl ⟨x, h, rfl, ex, hex, rfl, hs⟩
  | cons r rest ih =>
      intro acc x ex s h hex hs
      rcases ih (processRow acc r) x ex s h hex hs with
        ⟨w0, hw0, hid, ex0, hex0, hidx, hsin⟩ | ⟨r1, hr1, heq⟩
      · rcases mem_processRow hw0 with ⟨w1, hw1, rfl⟩
        have hid1 : w1.id = x.id := (updWorkout_id r w1) ▸ hid
        rw [updWorkout_exercises] at hex0
        by_cases hb : (w1.id == r.workout.id) = true
        · rw [if_pos hb] at hex0
          rcases sets_stepExercises hex0 hsin with
            ⟨ex1, hex1, hidx1, hsin1⟩ | ⟨we, srow, hwe, hset, hidx1, hseq⟩
          · rcases hw1 with hw1 | rfl
            · exact Or.inl ⟨w1, hw1, hid1, ex1, hex1, hidx1.trans hidx, hsin1⟩
            · simp [newWorkoutEntry] at hex1
          · exact Or.inr ⟨r, List.mem_cons_self r rest,
              (eq_of_beq hb) ▸ hid1, we, srow, hwe,
              hidx1 ▸ hidx, hset, hseq⟩
        · rw [if_neg hb] at hex0
          rcases hw1 with hw1 | rfl
          · exact Or.inl ⟨w1, hw1, hid1, ex0, hex0, hidx, hsin⟩
          · simp [newWorkoutEntry] at hex0
      · exact Or.inr ⟨r1, List.mem_cons_of_mem r hr1, heq⟩

lemma processRow_keeps_workout {acc : List OutWorkout} {r : JoinRow} {i : Nat}
    (h : ∃ x ∈ acc, x.id = i) : ∃ x ∈ processRow acc r, x.id = i := by
  rcases h with ⟨x, hx, hid⟩
  exact ⟨updWorkout r x,
    List.mem_map_of_mem _ (ensureWorkout_keeps hx), (updWorkout_id r x).trans hid⟩

lemma processRow_has_workout (acc : List OutWorkout) (r : JoinRow) :
    ∃ x ∈ processRow acc r, x.id = r.workout.id := by
  rcases ensureWorkout_has (w := r.workout) acc with ⟨x, hx, hid⟩
  exact ⟨updWorkout r x, List.mem_map_of_mem _ hx, (updWorkout_id r x).trans hid⟩

lemma foldl_keeps_workout :
    ∀ (rows : List JoinRow) (acc : List OutWorkout) (i : Nat),
      (∃ x ∈ acc, x.id = i) → ∃ x ∈ rows.foldl processRow acc, x.id = i := by
  intro rows
  induction rows with
  | nil => intro acc i h; exact h
  | cons r rest ih => intro acc i h; exact ih _ i (processRow_keeps_workout h)

lemma foldl_creates_workout :
    ∀ (rows : List JoinRow) (acc : List OutWorkout) (i : Nat),
      (∃ r ∈ rows, r.workout.id = i) →
      ∃ x ∈ rows.foldl processRow acc, x.id = i := by
  intro rows
  induction rows with
  | nil => intro acc i h; rcases h with ⟨r, hr, _⟩; cases hr
  | cons r rest ih =>
      intro acc i h
      rcases h with ⟨r1, hr1, hid⟩
      rcases List.mem_cons.1 hr1 with rfl | hr1
      · exact foldl_keeps_workout rest _ i (hid ▸ processRow_has_workout acc r1)
      · exact ih _ i ⟨r1, hr1, hid⟩

lemma processRow_keeps_ex {acc : List OutWorkout} {r : JoinRow} {i j : Nat} {nm : String}
    (h : ∃ x ∈ acc, x.id = i ∧ ∃ ex ∈ x.exercises, ex.id = j ∧ ex.name = nm) :
    ∃ x ∈ processRow acc r, x.id = i ∧ ∃ ex ∈ x.exercises, ex.id = j ∧ ex.name = nm := by
  rcases h with ⟨x, hx, hid, ex, hex, hexid, hexnm⟩
  refine ⟨updWorkout r x, List.mem_map_of_mem _ (ensureWorkout_keeps hx),
    (updWorkout_id r x).trans hid, ?_⟩
  rw [updWorkout_exercises]
  split
  · rcases stepExercises_keeps (r := r) hex with ⟨ex2, hex2, hk1, h2⟩
    exact ⟨ex2, hex2, hk1.trans hexid, h2.trans hexnm⟩
  · exact ⟨ex, hex, hexid, hexnm⟩

lemma foldl_keeps_ex :
    ∀ (rows : List JoinRow) (acc : List OutWorkout) (i j : Nat) (nm : String),
      (∃ x ∈ acc, x.id = i ∧ ∃ ex ∈ x.exercises, ex.id = j ∧ ex.name = nm) →
      ∃ x ∈ rows.foldl processRow acc, x.id = i ∧
        ∃ ex ∈ x.exercises, ex.id = j ∧ ex.name = nm := by
  intro rows
  induction rows with
  | nil => intro acc i j nm h; exact h
  | cons r rest ih => intro acc i j nm h; exact ih _ i j nm (processRow_keeps_ex h)

lemma processRow_creates_ex {acc : List OutWorkout} {r : JoinRow}
    {we : WorkoutExercise} {e : Exercise}
    (hwe : r.workoutExercise = some we) (he : r.exercise = some e) :
    ∃ x ∈ processRow acc r, x.id = r.workout.id ∧
      ∃ ex ∈ x.exercises, ex.id = we.id := by
  rcases ensureWorkout_has (w := r.workout) acc with ⟨x, hx, hid⟩
  refine ⟨updWorkout r x, List.mem_map_of_mem _ hx, (updWorkout_id r x).trans hid, ?_⟩
  rw [updWorkout_exercises, if_pos (by simpa using hid)]
  exact stepExercises_has hwe he x.exercises

lemma foldl_creates_ex :
    ∀ (rows : List JoinRow) (acc : List OutWorkout) (i j : Nat),
      (∃ r ∈ rows, r.workout.id = i ∧
        ∃ we, r.workoutExercise = some we ∧ we.id = j ∧ ∃ e, r.exercise = some e) →
      ∃ x ∈ rows.foldl processRow acc, x.id = i ∧
        ∃ ex ∈ x.exercises, ex.id = j := by
  intro rows
  induction rows with
  | nil => intro acc i j h; rcases h with ⟨r, hr, _⟩; cases hr
  | cons r rest ih =>
      intro acc i j h
      rcases h with ⟨r1, hr1, hid, we, hwe, hweid, e, he⟩
      rcases List.mem_cons.1 hr1 with rfl | hr1
      · rcases @processRow_creates_ex acc r1 we e hwe he with ⟨x, hx, hxid, ex, hex, hexid⟩
        -- keep the created entry through the remaining rows;
        -- persistence carries id and name, the name is irrelevant here
        rcases foldl_keeps_ex rest (processRow acc r1) i j ex.name
          ⟨x, hx, hxid.trans hid, ex, hex, hexid.trans hweid, rfl⟩ with
          ⟨x2, hx2, hxid2, ex2, hex2, hexid2, _⟩
        exact ⟨x2, hx2, hxid2, ex2, hex2, hexid2⟩
      · exact ih _ i j ⟨r1, hr1, hid, we, hwe, hweid, e, he⟩

lemma lexLe_trans (oa ob oc sa sb sc : Option Int)
    (h1 : (optIntLt oa ob || (optIntEq oa ob && optIntLe sa sb)) = true)
    (h2 : (optIntLt ob oc || (optIntEq ob oc && optIntLe sb sc)) = true) :
    (optIntLt oa oc || (optIntEq oa oc && optIntLe sa sc)) = true := by
  cases oa <;> cases ob <;> cases oc <;> cases sa <;> cases sb <;> cases sc <;>
    simp_all [optIntLt, optIntEq, optIntLe] <;> omega

lemma lexLe_total (oa ob sa sb : Option Int) :
    ((optIntLt oa ob || (optIntEq oa ob && optIntLe sa sb)) ||
     (optIntLt ob oa || (optIntEq ob oa && optIntLe sb sa))) = true := by
  cases oa <;> cases ob <;> cases sa <;> cases sb <;>
    simp_all [optIntLt, optIntEq, optIntLe] <;> omega

lemma rowLe_trans (a b c : JoinRow) (h1 : rowLe a b) (h2 : rowLe b c) : rowLe a c := by
  unfold rowLe at *
  exact lexLe_trans _ _ _ _ _ _ h1 h2

lemma rowLe_total (a b : JoinRow) : rowLe a b || rowLe b a := by
  unfold rowLe
  exact lexLe_total _ _ _ _

lemma rowLe_ord_le {a b : JoinRow} {o1 o2 : Int} (h : rowLe a b = true)
    (h1 : rowKeyOrd a = some o1) (h2 : rowKeyOrd b = some o2) : o1 ≤ o2 := by
  unfold rowLe at h
  rw [h1, h2] at h
  cases hsa : rowKeySet a <;> cases hsb : rowKeySet b <;> rw [hsa, hsb] at h <;>
    simp_all [optIntLt, optIntEq, optIntLe] <;> omega

lemma rowLe_set_le {a b : JoinRow} {o s1 s2 : Int} (h : rowLe a b = true)
    (h1 : rowKeyOrd a = some o) (h2 : rowKeyOrd b = some o)
    (hs1 : rowKeySet a = some s1) (hs2 : rowKeySet b = some s2) : s1 ≤ s2 := by
  unfold rowLe at h
  rw [h1, h2, hs1, hs2] at h
  simp_all [optIntLt, optIntEq, optIntLe]

lemma exLeDB_of_ids {db : DB} {e1 e2 e1x e2x : OutExercise}
    (h1 : e1x.id = e1.id) (h2 : e2x.id = e2.id) (h : exLeDB db e1 e2) :
    exLeDB db e1x e2x := by
  intro o1 o2 ho1 ho2
  exact h o1 o2 (h1 ▸ ho1) (h2 ▸ ho2)

lemma pushSet_fun_id (i : Nat) (s : OutSet) (e : OutExercise) :
    (if e.id == i then { e with sets := e.sets ++ [s] } else e).id = e.id := by
  split <;> rfl

/-- One row step keeps the exercise list sorted by order and every set
list sorted by setNumber, given the bound invariant for that row. -/
lemma stepExercises_sorted {db : DB} {r : JoinRow} {l : List OutExercise}
    (hord : ∀ we, r.workoutExercise = some we → ordOf db we.id = some we.order)
    (P1 : l.Pairwise (exLeDB db)) (P2 : ∀ ex ∈ l, setsSorted ex)
    (B1 : ∀ we, r.workoutExercise = some we →
      ∀ ex ∈ l, ∀ o, ordOf db ex.id = some o → o ≤ we.order)
    (B2 : ∀ we, r.workoutExercise = some we → ∀ s, r.set = some s →
      ∀ ex ∈ l, ex.id = we.id → ∀ st ∈ ex.sets, st.setNumber ≤ s.setNumber) :
    (stepExercises r l).Pairwise (exLeDB db) ∧
      ∀ ex ∈ stepExercises r l, setsSorted ex := by
  unfold stepExercises
  cases hwe : r.workoutExercise with
  | none => exact ⟨P1, P2⟩
  | some we =>
    cases hex : r.exercise with
    | none => exact ⟨P1, P2⟩
    | some e =>
      have hensP : (ensureExercise we e l).Pairwise (exLeDB db) := by
        unfold ensureExercise
        split
        · exact P1
        · refine List.pairwise_append.2 ⟨P1, List.pairwise_singleton _ _, ?_⟩
          intro ex0 hex0 ex1 hex1
          rcases List.mem_singleton.1 hex1 with rfl
          intro o1 o2 ho1 ho2
          have hwx : ordOf db we.id = some we.order := hord we hwe
          have : o2 = we.order := by
            have : ordOf db (newExEntry we e).id = some we.order := hwx
            rw [ho2] at this
            exact Option.some.inj this
          subst this
          exact B1 we hwe ex0 hex0 o1 ho1
      have hensS : ∀ ex ∈ ensureExercise we e l, setsSorted ex := by
        intro ex hexm
        rcases mem_ensureExercise hexm with h | h
        · exact P2 ex h
        · rw [h]
          exact List.Pairwise.nil
      cases hset : r.set with
      | none => exact ⟨hensP, hensS⟩
      | some s =>
          constructor
          · unfold pushSet
            refine List.pairwise_map.2 (hensP.imp ?_)
            intro e1 e2 h12
            exact exLeDB_of_ids (pushSet_fun_id we.id (outSet s) e1)
              (pushSet_fun_id we.id (outSet s) e2) h12
          · intro ex hexm
            rcases mem_pushSet hexm with ⟨ex0, hex0, hcase⟩
            rcases hcase with ⟨hid0, rfl⟩ | rfl
            · unfold setsSorted
              refine List.pairwise_append.2 ⟨hensS ex0 hex0, List.pairwise_singleton _ _, ?_⟩
              intro st hst s2 hs2
              rcases List.mem_singleton.1 hs2 with rfl
              rcases mem_ensureExercise hex0 with h0 | h0
              · exact B2 we hwe s hset ex0 h0 hid0 st hst
              · rw [h0] at hst
                cases hst
            · exact hensS ex hex0

/-- Processing one row preserves the sortedness invariant, given the
bound invariant of the accumulator with respect to that row. -/
lemma accSorted_processRow {db : DB} {acc : List OutWorkout} {r : JoinRow}
    (hs : accSorted db acc) (hb : accBound db acc r)
    (hord : ∀ we, r.workoutExercise = some we → ordOf db we.id = some we.order) :
    accSorted db (processRow acc r) := by
  intro x hx
  rcases mem_processRow hx with ⟨w1, hw1, rfl⟩
  rw [updWorkout_exercises]
  split
  · rcases hw1 with hw1 | rfl
    · exact stepExercises_sorted hord (hs w1 hw1).1 (hs w1 hw1).2
        (fun we hwe => (hb we hwe).1 w1 hw1)
        (fun we hwe s hset ex hex hid => (hb we hwe).2 s hset w1 hw1 ex hex hid)
    · refine stepExercises_sorted hord ?_ ?_ ?_ ?_ <;>
        simp [newWorkoutEntry, setsSorted]
  · rcases hw1 with hw1 | rfl
    · exact hs w1 hw1
    · simp [newWorkoutEntry, setsSorted]

/-- Processing one row re-establishes the bound invariant with respect
to every later row, when the processed row precedes it in the sort. -/
lemma accBound_processRow {db : DB} {acc : List OutWorkout} {r r2 : JoinRow}
    (hb2 : accBound db acc r2)
    (hle : rowLe r r2 = true)
    (hordr : ∀ we, r.workoutExercise = some we → ordOf db we.id = some we.order)
    (hordr2 : ∀ we, r2.workoutExercise = some we → ordOf db we.id = some we.order) :
    accBound db (processRow acc r) r2 := by
  intro we2 hwe2
  constructor
  · intro x hx ex hex o ho
    rcases mem_processRow hx with ⟨w1, hw1, rfl⟩
    rw [updWorkout_exercises] at hex
    have hnew : ∀ (h : w1 = newWorkoutEntry r.workout),
        ex ∈ w1.exercises → False := by
      intro h hmem
      rw [h] at hmem
      simp [newWorkoutEntry] at hmem
    split at hex
    · rcases exIdName_stepExercises hex with
        ⟨ex0, hex0, hidx, _⟩ | ⟨we, e, hwe, he, hidx, _⟩
      · rcases hw1 with hw1 | rfl
        · exact (hb2 we2 hwe2).1 w1 hw1 ex0 hex0 o (hidx ▸ ho)
        · exact absurd hex0 (by simp [newWorkoutEntry])
      · have hwo : ordOf db we.id = some we.order := hordr we hwe
        have ho2 : o = we.order := by
          rw [hidx] at ho
          rw [ho] at hwo
          exact Option.some.inj hwo.symm |>.symm
        subst ho2
        exact rowLe_ord_le hle (by simp [rowKeyOrd, hwe]) (by simp [rowKeyOrd, hwe2])
    · rcases hw1 with hw1 | rfl
      · exact (hb2 we2 hwe2).1 w1 hw1 ex hex o ho
      · exact absurd (hnew rfl hex) (fun h => h)
  · intro s2 hs2 x hx ex hex hexid st hst
    rcases mem_processRow hx with ⟨w1, hw1, rfl⟩
    rw [updWorkout_exercises] at hex
    split at hex
    · rcases sets_stepExercises hex hst with
        ⟨ex0, hex0, hidx, hstin⟩ | ⟨we, srow, hwe, hset, hidx, hseq⟩
      · rcases hw1 with hw1 | rfl
        · exact (hb2 we2 hwe2).2 s2 hs2 w1 hw1 ex0 hex0 (hidx.trans hexid) st hstin
        · exact absurd hex0 (by simp [newWorkoutEntry])
      · have hwid : we.id = we2.id := hidx ▸ hexid
        have h1 : ordOf db we.id = some we.order := hordr we hwe
        have h2 : ordOf db we2.id = some we2.order := hordr2 we2 hwe2
        have hord12 : we.order = we2.order := by
          rw [hwid] at h1
          rw [h1] at h2
          exact Option.some.inj h2
        have : srow.setNumber ≤ s2.setNumber := by
          refine rowLe_set_le (o := we2.order) hle ?_ ?_ ?_ ?_
          · rw [show rowKeyOrd r = some we.order by simp [rowKeyOrd, hwe], hord12]
          · simp [rowKeyOrd, hwe2]
          · simp [rowKeySet, hset]
          · simp [rowKeySet, hs2]
        rw [hseq]
        exact this
    · rcases hw1 with hw1 | rfl
      · exact (hb2 we2 hwe2).2 s2 hs2 w1 hw1 ex hex hexid st hst
      · exact absurd hex (by simp [newWorkoutEntry])

/-- The fold over a sorted row list keeps the whole accumulator
sorted. -/
lemma foldl_sorted (db : DB) :
    ∀ (rows : List JoinRow) (acc : List OutWorkout),
      rows.Pairwise (fun a b => rowLe a b = true) →
      (∀ r ∈ rows, ∀ we, r.workoutExercise = some we →
        ordOf db we.id = some we.order) →
      (∀ r ∈ rows, accBound db acc r) →
      accSorted db acc →
      accSorted db (rows.foldl processRow acc) := by
  intro rows
  induction rows with
  | nil => intro acc _ _ _ hs; exact hs
  | cons r rest ih =>
      intro acc hp hord hbound hs
      rcases List.pairwise_cons.1 hp with ⟨hr, hrest⟩
      refine ih (processRow acc r) hrest
        (fun r2 h2 => hord r2 (List.mem_cons_of_mem r h2)) ?_ ?_
      · intro r2 h2
        exact accBound_processRow (hbound r2 (List.mem_cons_of_mem r h2)) (hr r2 h2)
          (hord r (List.mem_cons_self r rest))
          (hord r2 (List.mem_cons_of_mem r h2))
      · exact accSorted_processRow hs (hbound r (List.mem_cons_self r rest))
          (hord r (List.mem_cons_self r rest))

/-- The sample database evaluates as expected: its generated row list
is already in ORDER BY order, so the sort is the identity and the
flattening loop computes by reduction. -/
lemma sampleEval : getWorkoutsByDate sampleDB "alice" "2025-06-01" =
    [sampleOut1, sampleOut2] := by
  unfold getWorkoutsByDate
  rw [List.mergeSort_of_sorted (by decide)]
  rfl

/-- Membership in the ownership-chain subquery of the set operations is
exactly reachability from a workout owned by the user. -/
lemma contains_userWEIds (db : DB) (uid : String) (j : Nat) :
    ((userWorkoutExerciseIds db uid).contains j = true) ↔ reachableWE db uid j := by
  rw [show (userWorkoutExerciseIds db uid).contains j =
        ((userWorkoutExerciseIds db uid).elem j) from rfl, List.elem_iff]
  unfold userWorkoutExerciseIds userWorkoutIds reachableWE
  constructor
  · intro h
    rcases List.mem_map.1 h with ⟨we, hwe, rfl⟩
    rcases List.mem_filter.1 hwe with ⟨hwe1, hcont⟩
    have hmem : we.workoutId ∈
        (db.workouts.filter (fun w => w.userId == uid)).map Workout.id := by
      rw [← List.elem_iff]
      exact hcont
    rcases List.mem_map.1 hmem with ⟨w, hw, hwid⟩
    rcases List.mem_filter.1 hw with ⟨hw1, hw2⟩
    exact ⟨we, hwe1, rfl, w, hw1, hwid, by simpa using hw2⟩
  · rintro ⟨we, hwe, rfl, w, hw, hwid, huid⟩
    refine List.mem_map.2 ⟨we, List.mem_filter.2 ⟨hwe, ?_⟩, rfl⟩
    rw [show ((db.workouts.filter (fun w => w.userId == uid)).map Workout.id).contains
          we.workoutId =
        (((db.workouts.filter (fun w => w.userId == uid)).map Workout.id).elem
          we.workoutId) from rfl, List.elem_iff]
    exact List.mem_map.2 ⟨w, List.mem_filter.2 ⟨hw, by simp [huid]⟩, hwid⟩

/-- A LIMIT 1 select over a predicate that some row satisfies returns
some row. -/
lemma head?_filter_pos {α : Type} {p : α → Bool} {l : List α}
    (h : ∃ a ∈ l, p a) : ∃ x, (l.filter p).head? = some x := by
  rcases h with ⟨a, ha, hp⟩
  have hm : a ∈ l.filter p := List.mem_filter.2 ⟨ha, hp⟩
  cases hf : l.filter p with
  | nil => rw [hf] at hm; cases hm
  | cons x t => exact ⟨x, rfl⟩

/-- Core of the empty-children and round-trip claims: a matching owned
workout with no attached workout_exercises rows appears in the fetch
with its scalar fields and an empty exercise list. -/
lemma fetch_contains_empty {db : DB} {uid date : String} {w : Workout}
    (huniq : idsUnique Workout.id db.workouts)
    (hw : w ∈ db.workouts) (hu : w.userId = uid) (hd : w.date = date)
    (hno : ∀ we ∈ db.workoutExercises, we.workoutId ≠ w.id) :
    ∃ ow ∈ getWorkoutsByDate db uid date,
      ow.id = w.id ∧ ow.name = w.name ∧ ow.notes = w.notes ∧ ow.exercises = [] := by
  obtain ⟨r, hr, hrw⟩ := joinRows_exists_workout hw hu hd
  have hrs : r ∈ (joinRows db uid date).mergeSort rowLe := List.mem_mergeSort.2 hr
  obtain ⟨x, hx, hxid⟩ :=
    foldl_creates_workout ((joinRows db uid date).mergeSort rowLe) [] w.id
      ⟨r, hrs, by rw [hrw]⟩
  have hout : x ∈ getWorkoutsByDate db uid date := hx
  have hempty : x.exercises = [] := by
    rw [List.eq_nil_iff_forall_not_mem]
    intro ex hex
    rcases ex_foldl _ [] x ex hx hex with
      ⟨w0, hw0, -⟩ | ⟨r2, hr2, hid2, we2, e2, hwe2, he2, -, -⟩
    · cases hw0
    · have hsrc := joinRows_src (List.mem_mergeSort.1 hr2)
      have hweq : r2.workout = w := idsUnique_eq huniq hsrc.1 hw (by rw [hid2, hxid])
      have h2 := hsrc.2.2.2.1 we2 hwe2
      exact hno we2 h2.1 (by rw [h2.2, hweq])
  rcases scal_foldl _ [] x hx with
    ⟨w0, hw0, -⟩ | ⟨r3, hr3, hid3, hname3, -, hnotes3⟩
  · cases hw0
  · have hsrc3 := joinRows_src (List.mem_mergeSort.1 hr3)
    have hweq3 : r3.workout = w :=
      idsUnique_eq huniq hsrc3.1 hw (by rw [← hid3, hxid])
    exact ⟨x, hout, hxid, by rw [hname3, hweq3], by rw [hnotes3, hweq3], hempty⟩

/-- C1: every workout returned by getWorkoutsByDate carries exactly the
requested date and stems from a stored workout row owned by the
authenticated caller with that same date; a workout of any other user
is never included. -/
theorem getWorkoutsByDate_owner_scoped (db : DB) (uid date : String) :
    ∀ ow ∈ getWorkoutsByDate db uid date,
      ow.date = date ∧
      ∃ w ∈ db.workouts, w.userId = uid ∧ w.date = date ∧
        w.id = ow.id ∧ w.name = ow.name ∧ w.notes = ow.notes := by
  intro ow how
  rcases scal_foldl ((joinRows db uid date).mergeSort rowLe) [] ow how with
    ⟨w0, hw0, -⟩ | ⟨r, hr, hid, hname, hdate, hnotes⟩
  · cases hw0
  · have hsrc := joinRows_src (List.mem_mergeSort.1 hr)
    exact ⟨hdate.trans hsrc.2.2.1, r.workout, hsrc.1, hsrc.2.1, hsrc.2.2.1,
      hid.symm, hname.symm, hnotes.symm⟩

/-- Witness for C1: the fetched Push Day workout of the sample database
satisfies the ownership and date property. -/
theorem getWorkoutsByDate_owner_scoped_inst :
    sampleOut1 ∈ getWorkoutsByDate sampleDB "alice" "2025-06-01" ∧
    (sampleOut1.date = "2025-06-01" ∧
      ∃ w ∈ sampleDB.workouts, w.userId = "alice" ∧ w.date = "2025-06-01" ∧
        w.id = sampleOut1.id ∧ w.name = sampleOut1.name ∧
        w.notes = sampleOut1.notes) :=
  ⟨by rw [sampleEval]; simp,
   getWorkoutsByDate_owner_scoped sampleDB "alice" "2025-06-01" sampleOut1
     (by rw [sampleEval]; simp)⟩

/-- C2 counterexample: updating alice's workout 1 while authenticated
as bob leaves the row unchanged, but the updateWorkoutAction entry
point named by the claim does raise — it dereferences the undefined
data-layer result and fails with a TypeError instead of returning a
no-change result. -/
theorem updateWorkoutAction_other_user_raises :
    updateWorkoutAction sampleDB "bob"
      { workoutId := 1, name := none, date := "2025-06-02", notes := none } =
      (Except.error "TypeError: cannot read properties of undefined", sampleDB) := by
  rfl

/-- C2 (amended): for a workout owned by another user, the data-layer
updateWorkout leaves the stored row unchanged, returns an undefined
result and raises nothing; the updateWorkoutAction entry point then
raises a TypeError when it reads the id off that undefined result, so
the silent no-op holds at the data layer only. -/
theorem updateWorkout_other_user_silent (db : DB) (uid : String) (wid : Nat)
    (u : WorkoutUpdate)
    (h : ∀ w ∈ db.workouts, w.id = wid → w.userId ≠ uid) :
    updateWorkout db uid wid u = (none, db) ∧
    ∀ input : UpdateWorkoutInput, input.workoutId = wid →
      validUpdateWorkoutInput input = true →
      updateWorkoutAction db uid input =
        (Except.error "TypeError: cannot read properties of undefined", db) := by
  have hcondf : ∀ w ∈ db.workouts, (w.id == wid && w.userId == uid) = false := by
    intro w hw
    by_cases h1 : w.id = wid
    · have h2 := h w hw h1
      simp [h1, beq_iff_eq, h2]
    · simp [beq_iff_eq, h1]
  have hgen : ∀ u2 : WorkoutUpdate, updateWorkout db uid wid u2 = (none, db) := by
    intro u2
    have hfil : db.workouts.filter (fun w => w.id == wid && w.userId == uid) = [] := by
      rw [List.filter_eq_nil_iff]
      intro w hw hp
      rw [hcondf w hw] at hp
      cases hp
    have hmap : db.workouts.map (fun w =>
        if w.id == wid && w.userId == uid then applyWorkoutUpdate u2 w else w) =
        db.workouts := by
      conv_rhs => rw [← List.map_id db.workouts]
      refine List.map_congr_left ?_
      intro w hw
      simp [hcondf w hw]
    unfold updateWorkout
    rw [hfil, hmap]
    rfl
  refine ⟨hgen u, ?_⟩
  intro input hwid hval
  unfold updateWorkoutAction
  rw [if_pos hval, hwid, hgen]

/-- Witness for C2: bob does not own workout 1 of the sample database,
and the data-layer update as bob is the silent no-op. -/
theorem updateWorkout_other_user_silent_inst :
    (∀ w ∈ sampleDB.workouts, w.id = 1 → w.userId ≠ "bob") ∧
    updateWorkout sampleDB "bob" 1 { name := none, date := none, notes := none } =
      (none, sampleDB) :=
  ⟨by decide,
   (updateWorkout_other_user_silent sampleDB "bob" 1
     { name := none, date := none, notes := none } (by decide)).1⟩

/-- C3: in every fetched workout the exercise entries are in ascending
order of their workout_exercises order column, and each exercise entry
carries its sets in ascending setNumber order. -/
theorem getWorkoutsByDate_sorted (db : DB) (uid date : String) (hwf : db.wf) :
    ∀ ow ∈ getWorkoutsByDate db uid date,
      ow.exercises.Pairwise (exLeDB db) ∧ ∀ ex ∈ ow.exercises, setsSorted ex := by
  have hp : ((joinRows db uid date).mergeSort rowLe).Pairwise
      (fun a b => rowLe a b = true) :=
    List.sorted_mergeSort rowLe_trans rowLe_total (joinRows db uid date)
  have hord : ∀ r ∈ (joinRows db uid date).mergeSort rowLe,
      ∀ we, r.workoutExercise = some we → ordOf db we.id = some we.order := by
    intro r hr we hwe
    exact ordOf_eq hwf ((joinRows_src (List.mem_mergeSort.1 hr)).2.2.2.1 we hwe).1
  have hb : ∀ r ∈ (joinRows db uid date).mergeSort rowLe,
      accBound db [] r := by
    intro r hr we hwe
    exact ⟨fun x hx => absurd hx (List.not_mem_nil x),
      fun s hs x hx => absurd hx (List.not_mem_nil x)⟩
  have hs : accSorted db ([] : List OutWorkout) :=
    fun x hx => absurd hx (List.not_mem_nil x)
  exact foldl_sorted db ((joinRows db uid date).mergeSort rowLe) [] hp hord hb hs

/-- Witness for C3: the sample database is well formed and its fetched
Push Day workout satisfies the sortedness property. -/
theorem getWorkoutsByDate_sorted_inst :
    sampleDB.wf ∧
    sampleOut1 ∈ getWorkoutsByDate sampleDB "alice" "2025-06-01" ∧
    (sampleOut1.exercises.Pairwise (exLeDB sampleDB) ∧
      ∀ ex ∈ sampleOut1.exercises, setsSorted ex) :=
  ⟨by decide, by rw [sampleEval]; simp,
   getWorkoutsByDate_sorted sampleDB "alice" "2025-06-01" (by decide) sampleOut1
     (by rw [sampleEval]; simp)⟩

/-- C4: a matching workout with no attached workout-exercises appears
in the fetch with an empty exercise list, and a workout-exercise with
no sets appears as an exercise entry with an empty set list. -/
theorem getWorkoutsByDate_empty_children (db : DB) (uid date : String) (hwf : db.wf) :
    (∀ w ∈ db.workouts, w.userId = uid → w.date = date →
      (∀ we ∈ db.workoutExercises, we.workoutId ≠ w.id) →
      ∃ ow ∈ getWorkoutsByDate db uid date,
        ow.id = w.id ∧ ow.name = w.name ∧ ow.notes = w.notes ∧ ow.exercises = []) ∧
    (∀ w ∈ db.workouts, w.userId = uid → w.date = date →
      ∀ we ∈ db.workoutExercises, we.workoutId = w.id →
      ∀ e ∈ db.exercises, e.id = we.exerciseId →
      (∀ s ∈ db.sets, s.workoutExerciseId ≠ we.id) →
      ∃ ow ∈ getWorkoutsByDate db uid date, ow.id = w.id ∧
        ∃ ex ∈ ow.exercises, ex.id = we.id ∧ ex.name = e.name ∧ ex.sets = []) := by
  constructor
  · intro w hw hu hd hno
    exact fetch_contains_empty hwf.1 hw hu hd hno
  · intro w hw hu hd we hwe hlink e he hek hnosets
    obtain ⟨r, hr, hrw, hrwe, hre⟩ := joinRows_exists_we hw hu hd hwe hlink he hek
    have hrs : r ∈ (joinRows db uid date).mergeSort rowLe := List.mem_mergeSort.2 hr
    obtain ⟨x, hx, hxid, ex, hexm, hexid⟩ :=
      foldl_creates_ex ((joinRows db uid date).mergeSort rowLe) [] w.id we.id
        ⟨r, hrs, by rw [hrw], we, hrwe, rfl, e, hre⟩
    have hname : ex.name = e.name := by
      rcases ex_foldl _ [] x ex hx hexm with
        ⟨w0, hw0, -⟩ | ⟨r2, hr2, -, we2, e2, hwe2, he2, hexid2, hexnm2⟩
      · cases hw0
      · have hsrc := joinRows_src (List.mem_mergeSort.1 hr2)
        have hwe2m := hsrc.2.2.2.1 we2 hwe2
        have hwe2eq : we2 = we :=
          idsUnique_eq hwf.2.1 hwe2m.1 hwe (by rw [← hexid2, hexid])
        rcases hsrc.2.2.2.2.1 e2 he2 with ⟨he2mem, we3, hwe3, he2id⟩
        have hwe32 : we3 = we2 := by
          rw [hwe2] at hwe3
          exact (Option.some.inj hwe3).symm
        have he2eq : e2 = e := by
          apply idsUnique_eq hwf.2.2.1 he2mem he
          rw [he2id, hwe32, hwe2eq, ← hek]
        rw [hexnm2, he2eq]
    have hempty : ex.sets = [] := by
      rw [List.eq_nil_iff_forall_not_mem]
      intro s hsm
      rcases sets_foldl _ [] x ex s hx hexm hsm with
        ⟨w0, hw0, -⟩ | ⟨r2, hr2, -, we2, srow, hwe2, hweid2, hset2, -⟩
      · cases hw0
      · have hsrc := joinRows_src (List.mem_mergeSort.1 hr2)
        rcases hsrc.2.2.2.2.2 srow hset2 with ⟨hsrow, we3, hwe3, hsid⟩
        have hwe32 : we3 = we2 := by
          rw [hwe2] at hwe3
          exact (Option.some.inj hwe3).symm
        exact hnosets srow hsrow (by rw [hsid, hwe32, hweid2, hexid])
    exact ⟨x, hx, hxid, ex, hexm, hexid, hname, hempty⟩

/-- Witness for C4: in the sample database, the exercise-free workout 2
appears with an empty exercise list, and the set-free Bench
workout-exercise of workout 1 appears with an empty set list. -/
theorem getWorkoutsByDate_empty_children_inst :
    (∃ ow ∈ getWorkoutsByDate sampleDB "alice" "2025-06-01",
      ow.id = 2 ∧ ow.name = some "Empty" ∧ ow.notes = none ∧ ow.exercises = []) ∧
    (∃ ow ∈ getWorkoutsByDate sampleDB "alice" "2025-06-01", ow.id = 1 ∧
      ∃ ex ∈ ow.exercises, ex.id = 11 ∧ ex.name = "Bench" ∧ ex.sets = []) :=
  ⟨(getWorkoutsByDate_empty_children sampleDB "alice" "2025-06-01" (by decide)).1
      { id := 2, userId := "alice", name := some "Empty",
        date := "2025-06-01", notes := none }
      (by decide) (by decide) (by decide) (by decide),
   (getWorkoutsByDate_empty_children sampleDB "alice" "2025-06-01" (by decide)).2
      { id := 1, userId := "alice", name := some "Push Day",
        date := "2025-06-01", notes := some "felt strong" }
      (by decide) (by decide) (by decide)
      { id := 11, workoutId := 1, exerciseId := 4, order := 1 }
      (by decide) (by decide)
      { id := 4, name := "Bench" }
      (by decide) (by decide) (by decide)⟩

/-- C5: creating a set against a workout-exercise that is not reachable
from a workout owned by the caller fails with the not-found error and
leaves the sets table unchanged. -/
theorem createSet_unreachable (db : DB) (uid : String) (newId : Nat)
    (workoutExerciseId : Nat) (setNumber : Int)
    (weight : Option String) (reps : Option Int)
    (h : ¬ reachableWE db uid workoutExerciseId) :
    createSet db uid newId workoutExerciseId setNumber weight reps =
      (Except.error "Workout exercise not found", db) := by
  have hnil : db.workoutExercises.filter
      (fun we => we.id == workoutExerciseId &&
        (userWorkoutExerciseIds db uid).contains we.id) = [] := by
    rw [List.filter_eq_nil_iff]
    intro we hwe hcontra
    simp only [Bool.and_eq_true, beq_iff_eq] at hcontra
    rcases hcontra with ⟨hid, hcont⟩
    exact h (hid ▸ (contains_userWEIds db uid we.id).1 hcont)
  unfold createSet
  rw [hnil]
  rfl

/-- Witness for C5: workout-exercise 10 hangs off alice's workout, so
creating a set on it as bob fails and changes nothing. -/
theorem createSet_unreachable_inst :
    (¬ reachableWE sampleDB "bob" 10) ∧
    createSet sampleDB "bob" 200 10 1 (some "135.00") (some 10) =
      (Except.error "Workout exercise not found", sampleDB) :=
  ⟨by decide,
   createSet_unreachable sampleDB "bob" 200 10 1 (some "135.00") (some 10) (by decide)⟩

/-- C6: addExerciseToWorkout throws exactly when the workout is absent
or unowned, or the exercise id is missing from the catalog, inserting
nothing in either case; when both checks pass it inserts and returns
the workout-exercise. -/
theorem addExerciseToWorkout_cases (db : DB) (uid : String) (newId : Nat)
    (workoutId exerciseId : Nat) (order : Int) :
    ((¬ ∃ w ∈ db.workouts, w.id = workoutId ∧ w.userId = uid) →
      addExerciseToWorkout db uid newId workoutId exerciseId order =
        (Except.error "Workout not found", db)) ∧
    ((∃ w ∈ db.workouts, w.id = workoutId ∧ w.userId = uid) →
      (¬ ∃ e ∈ db.exercises, e.id = exerciseId) →
      addExerciseToWorkout db uid newId workoutId exerciseId order =
        (Except.error ("Exercise with ID " ++ toString exerciseId ++ " not found"), db)) ∧
    ((∃ w ∈ db.workouts, w.id = workoutId ∧ w.userId = uid) →
      (∃ e ∈ db.exercises, e.id = exerciseId) →
      addExerciseToWorkout db uid newId workoutId exerciseId order =
        (Except.ok
          { id := newId, workoutId := workoutId
            exerciseId := exerciseId, order := order },
         { db with workoutExercises := db.workoutExercises ++
            [{ id := newId, workoutId := workoutId
               exerciseId := exerciseId, order := order }] })) := by
  refine ⟨?_, ?_, ?_⟩
  · intro hno
    have hnil : db.workouts.filter (fun w => w.id == workoutId && w.userId == uid) = [] := by
      rw [List.filter_eq_nil_iff]
      intro w hw hp
      simp only [Bool.and_eq_true, beq_iff_eq] at hp
      exact hno ⟨w, hw, hp.1, hp.2⟩
    unfold addExerciseToWorkout
    rw [hnil]
    rfl
  · intro hyes hno
    obtain ⟨x, hx⟩ := head?_filter_pos
      (p := fun w => w.id == workoutId && w.userId == uid) (l := db.workouts)
      (by rcases hyes with ⟨w, hw, h1, h2⟩; exact ⟨w, hw, by simp [h1, h2]⟩)
    have hnil : db.exercises.filter (fun e => e.id == exerciseId) = [] := by
      rw [List.filter_eq_nil_iff]
      intro e he hp
      simp only [beq_iff_eq] at hp
      exact hno ⟨e, he, hp⟩
    unfold addExerciseToWorkout
    rw [hx, hnil]
    rfl
  · intro hyes1 hyes2
    obtain ⟨x, hx⟩ := head?_filter_pos
      (p := fun w => w.id == workoutId && w.userId == uid) (l := db.workouts)
      (by rcases hyes1 with ⟨w, hw, h1, h2⟩; exact ⟨w, hw, by simp [h1, h2]⟩)
    obtain ⟨y, hy⟩ := head?_filter_pos
      (p := fun e => e.id == exerciseId) (l := db.exercises)
      (by rcases hyes2 with ⟨e, he, h1⟩; exact ⟨e, he, by simp [h1]⟩)
    unfold addExerciseToWorkout
    rw [hx, hy]

/-- Witness for C6: adding catalog exercise 3 to alice's own workout 2
succeeds and appends the workout-exercise row. -/
theorem addExerciseToWorkout_cases_inst :
    addExerciseToWorkout sampleDB "alice" 12 2 3 0 =
      (Except.ok { id := 12, workoutId := 2, exerciseId := 3, order := 0 },
       { sampleDB with workoutExercises := sampleDB.workoutExercises ++
          [{ id := 12, workoutId := 2, exerciseId := 3, order := 0 }] }) :=
  (addExerciseToWorkout_cases sampleDB "alice" 12 2 3 0).2.2 (by decide) (by decide)

/-- C7: getWorkoutById returns the same undefined result whether the
workout exists but belongs to another user or does not exist at all; it
never raises for an unowned record. -/
theorem getWorkoutById_unowned_indistinct (db1 db2 : DB) (uid : String) (wid : Nat)
    (h1 : ∀ w ∈ db1.workouts, w.id = wid → w.userId ≠ uid)
    (h2 : ∀ w ∈ db2.workouts, w.id ≠ wid) :
    getWorkoutById db1 uid wid = none ∧ getWorkoutById db2 uid wid = none ∧
    getWorkoutById db1 uid wid = getWorkoutById db2 uid wid := by
  have e1 : getWorkoutById db1 uid wid = none := by
    have hnil : db1.workouts.filter (fun w => w.id == wid && w.userId == uid) = [] := by
      rw [List.filter_eq_nil_iff]
      intro w hw hp
      simp only [Bool.and_eq_true, beq_iff_eq] at hp
      exact h1 w hw hp.1 hp.2
    unfold getWorkoutById
    rw [hnil]
    rfl
  have e2 : getWorkoutById db2 uid wid = none := by
    have hnil : db2.workouts.filter (fun w => w.id == wid && w.userId == uid) = [] := by
      rw [List.filter_eq_nil_iff]
      intro w hw hp
      simp only [Bool.and_eq_true, beq_iff_eq] at hp
      exact h2 w hw hp.1
    unfold getWorkoutById
    rw [hnil]
    rfl
  exact ⟨e1, e2, e1.trans e2.symm⟩

/-- Witness for C7: as bob, alice's workout 1 and the id 1 in an empty
database both read back as none. -/
theorem getWorkoutById_unowned_indistinct_inst :
    getWorkoutById sampleDB "bob" 1 = none ∧ getWorkoutById emptyDB "bob" 1 = none ∧
    getWorkoutById sampleDB "bob" 1 = getWorkoutById emptyDB "bob" 1 :=
  getWorkoutById_unowned_indistinct sampleDB emptyDB "bob" 1 (by decide) (by decide)

/-- C8: creating a workout named Push Day with notes for 2025-06-01 and
fetching that date as the same user returns that workout with its name,
its notes and an empty exercise list. -/
theorem createWorkout_fetch_roundtrip (db : DB) (uid : String) (newId : Nat)
    (huniq : idsUnique Workout.id db.workouts)
    (hfresh1 : ∀ w ∈ db.workouts, w.id ≠ newId)
    (hfresh2 : ∀ we ∈ db.workoutExercises, we.workoutId ≠ newId) :
    ∃ ow ∈ getWorkoutsByDate
        (createWorkout db uid newId (some "Push Day") "2025-06-01"
          (some "felt strong")).2 uid "2025-06-01",
      ow.id = newId ∧ ow.name = some "Push Day" ∧
      ow.notes = some "felt strong" ∧ ow.exercises = [] := by
  have huniq2 : idsUnique Workout.id (db.workouts ++
      [{ id := newId, userId := uid, name := some "Push Day",
         date := "2025-06-01", notes := some "felt strong" }]) := by
    refine List.pairwise_append.2 ⟨huniq, List.pairwise_singleton _ _, ?_⟩
    intro a ha b hb
    rcases List.mem_singleton.1 hb with rfl
    exact hfresh1 a ha
  exact @fetch_contains_empty
    { db with workouts := db.workouts ++
      [{ id := newId, userId := uid, name := some "Push Day",
         date := "2025-06-01", notes := some "felt strong" }] }
    uid "2025-06-01"
    { id := newId, userId := uid, name := some "Push Day",
      date := "2025-06-01", notes := some "felt strong" }
    huniq2
    (List.mem_append.2 (Or.inr (List.mem_singleton.2 rfl)))
    rfl rfl hfresh2

/-- Witness for C8: the round trip for a fresh id in the sample
database as carol. -/
theorem createWorkout_fetch_roundtrip_inst :
    (∀ w ∈ sampleDB.workouts, w.id ≠ 50) ∧
    ∃ ow ∈ getWorkoutsByDate
        (createWorkout sampleDB "carol" 50 (some "Push Day") "2025-06-01"
          (some "felt strong")).2 "carol" "2025-06-01",
      ow.id = 50 ∧ ow.name = some "Push Day" ∧
      ow.notes = some "felt strong" ∧ ow.exercises = [] :=
  ⟨by decide,
   createWorkout_fetch_roundtrip sampleDB "carol" 50 (by decide) (by decide) (by decide)⟩

/-- C9: deleting a set whose id does not exist or is not reachable from
a workout owned by the caller raises nothing, deletes nothing, and the
delete-set entry point still reports success. -/
theorem deleteSet_unreachable_noop (db : DB) (uid : String) (setId workoutId : Nat)
    (h : ∀ s ∈ db.sets, s.id = setId → ¬ reachableWE db uid s.workoutExerciseId) :
    deleteSet db uid setId = db ∧
    deleteSetAction db uid setId workoutId = (true, db) := by
  have hfil : db.sets.filter (fun s =>
      !(s.id == setId && (userWorkoutExerciseIds db uid).contains s.workoutExerciseId)) =
      db.sets := by
    rw [List.filter_eq_self]
    intro s hs
    by_cases h1 : s.id = setId
    · have h2 := h s hs h1
      cases hcs : (userWorkoutExerciseIds db uid).contains s.workoutExerciseId
      · simp [hcs]
      · exact absurd ((contains_userWEIds db uid s.workoutExerciseId).1 hcs) h2
    · simp [beq_iff_eq, h1]
  have hdel : deleteSet db uid setId = db := by
    unfold deleteSet
    rw [hfil]
  exact ⟨hdel, by unfold deleteSetAction; rw [hdel]⟩

/-- Witness for C9: deleting alice's set 100 as bob leaves the sample
database unchanged and the action still reports success. -/
theorem deleteSet_unreachable_noop_inst :
    deleteSet sampleDB "bob" 100 = sampleDB ∧
    deleteSetAction sampleDB "bob" 100 1 = (true, sampleDB) :=
  deleteSet_unreachable_noop sampleDB "bob" 100 1 (by decide)

/-- C10: updates cannot move a row to another owner: updateWorkout
preserves every workout's id and userId, and updateSet preserves every
set's id, workoutExerciseId and setNumber. -/
theorem update_ownership_immutable :
    (∀ (db : DB) (uid : String) (wid : Nat) (u : WorkoutUpdate),
      ((updateWorkout db uid wid u).2).workouts.map (fun w => (w.id, w.userId)) =
        db.workouts.map (fun w => (w.id, w.userId))) ∧
    (∀ (db : DB) (uid : String) (sid : Nat) (u : SetUpdate),
      ((updateSet db uid sid u).2).sets.map
          (fun s => (s.id, s.workoutExerciseId, s.setNumber)) =
        db.sets.map (fun s => (s.id, s.workoutExerciseId, s.setNumber))) := by
  constructor
  · intro db uid wid u
    show (db.workouts.map (fun w =>
        if w.id == wid && w.userId == uid then applyWorkoutUpdate u w else w)).map
        (fun w => (w.id, w.userId)) = db.workouts.map (fun w => (w.id, w.userId))
    rw [List.map_map]
    refine List.map_congr_left ?_
    intro w hw
    by_cases hcond : (w.id == wid && w.userId == uid) = true
    · simp [Function.comp, hcond, applyWorkoutUpdate]
    · simp [Function.comp, hcond]
  · intro db uid sid u
    show (db.sets.map (fun s =>
        if s.id == sid && (userWorkoutExerciseIds db uid).contains s.workoutExerciseId
        then applySetUpdate u s else s)).map
        (fun s => (s.id, s.workoutExerciseId, s.setNumber)) =
        db.sets.map (fun s => (s.id, s.workoutExerciseId, s.setNumber))
    rw [List.map_map]
    refine List.map_congr_left ?_
    intro s hs
    simp only [Function.comp_apply]
    split
    · rfl
    · rfl

end LiftingDiary
